import Mathlib

/-!
# Verification of the LoRa surveillance backend aggregation layer

Shallow embedding of `src/backend/main.py`: the log reader `_load_logs`,
the image scanner `_load_images`, and the endpoint handlers `get_logs` /
`get_images`, together with proofs of the specified properties.

Modelling conventions:
* JSON values are the inductive `Json`; JSON numbers are embedded as `Int`
  (the documents relevant to the properties below carry integral literals).
* Python runtime failures are the `PyErr` type: `HTTPException(status, detail)`
  raised by the code itself, and the untyped `TypeError` / `AttributeError`
  that `sorted` or `dict.get` can raise.
* A file's `st_mtime` is embedded as whole seconds (`Int`).
* `sorted(xs, key=k, reverse=True)` and `list.sort(key=k, reverse=True)` are
  CPython's stable descending sort: the key function is applied to every
  element up front (in list order), then elements are reordered so that
  strictly larger keys come first and equal keys keep their list order.
  On keys that are totally ordered every stable sort computes this same
  list, so it is embedded as the stable insertion sort
  `List.insertionSort (fun a b => key b ≤ key a)`; when the keys are
  arbitrary Python values (the log path), the embedding `sortE` performs the
  same insertions but propagates the `TypeError` of an undefined comparison.
-/

/-- A JSON value as produced by `json.loads` (numbers restricted to `Int`). -/
inductive Json where
  | null : Json
  | bool : Bool → Json
  | num : Int → Json
  | str : String → Json
  | arr : List Json → Json
  | obj : List (String × Json) → Json
deriving Repr

/-- A Python-level failure escaping a handler: a `fastapi.HTTPException`
raised on purpose, or an untyped `TypeError` / `AttributeError`. -/
inductive PyErr where
  | httpException : Nat → String → PyErr
  | typeError : PyErr
  | attributeError : PyErr
deriving Repr, DecidableEq

/-- Whether a `PyErr` is a deliberate `HTTPException` (as opposed to an
untyped runtime error). -/
def PyErr.isHTTP : PyErr → Bool
  | .httpException _ _ => true
  | _ => false

/-- Python `bool` seen as `int` (`True == 1`, `False == 0`). -/
def boolInt (b : Bool) : Int := if b then 1 else 0

mutual
/-- Python `==` on JSON values: numeric across `bool`/`int`, structural on
strings, lists and dicts, `False` (never an error) across distinct types. -/
def pyEq : Json → Json → Bool
  | Json.null, Json.null => true
  | Json.bool a, Json.bool b => boolInt a == boolInt b
  | Json.bool a, Json.num n => boolInt a == n
  | Json.num n, Json.bool b => n == boolInt b
  | Json.num a, Json.num b => a == b
  | Json.str a, Json.str b => a == b
  | Json.arr a, Json.arr b => pyEqList a b
  | Json.obj a, Json.obj b => a.length == b.length && pyEqObj a b
  | _, _ => false

/-- Elementwise Python `==` of two lists (CPython `list` equality). -/
def pyEqList : List Json → List Json → Bool
  | [], [] => true
  | a :: as, b :: bs => pyEq a b && pyEqList as bs
  | _, _ => false

/-- CPython `dict` equality body: every key of the first dict is present in
the second with a `==` value (lengths are compared by the caller). -/
def pyEqObj : List (String × Json) → List (String × Json) → Bool
  | [], _ => true
  | (k, v) :: rest, f => pyFindEq k v f && pyEqObj rest f

/-- Whether key `k` occurs in the field list with a value `==` to `v`. -/
def pyFindEq : String → Json → List (String × Json) → Bool
  | _, _, [] => false
  | k, v, (k2, v2) :: rest => if k = k2 then pyEq v v2 else pyFindEq k v rest
end

mutual
/-- Python `<` on JSON values: defined for numbers (with `bool` as `int`),
for strings (lexicographic on code points) and elementwise for lists;
any other combination raises `TypeError`. -/
def pyLt : Json → Json → Except PyErr Bool
  | Json.bool a, Json.bool b => .ok (decide (boolInt a < boolInt b))
  | Json.bool a, Json.num n => .ok (decide (boolInt a < n))
  | Json.num n, Json.bool b => .ok (decide (n < boolInt b))
  | Json.num a, Json.num b => .ok (decide (a < b))
  | Json.str a, Json.str b => .ok (decide (a < b))
  | Json.arr a, Json.arr b => pyLtList a b
  | _, _ => .error PyErr.typeError

/-- CPython `list` `<`: skip the longest common (`==`) prefix, then compare
the first differing elements, falling back to the lengths. -/
def pyLtList : List Json → List Json → Except PyErr Bool
  | [], [] => .ok false
  | [], _ :: _ => .ok true
  | _ :: _, [] => .ok false
  | a :: as, b :: bs => if pyEq a b then pyLtList as bs else pyLt a b
end

/-- Lookup in a parsed JSON object; on duplicate keys `json.loads` keeps the
last occurrence, so the last binding wins. -/
def lookupField (fields : List (String × Json)) (k : String) : Option Json :=
  match fields with
  | [] => none
  | (k2, v) :: rest =>
    match lookupField rest k with
    | some w => some w
    | none => if k2 = k then some v else none

/-- The sort key `e.get("timestamp", "")` of one event: the `timestamp`
field, defaulting to the empty string; a non-dict event has no `.get`
method, so Python raises `AttributeError`. -/
def tsKey : Json → Except PyErr Json
  | Json.obj fields => .ok ((lookupField fields "timestamp").getD (Json.str ""))
  | _ => .error PyErr.attributeError

/-- The sort key of an event as a `String`, for stating order properties:
meaningful exactly when `eventKeyStr` holds. -/
def keyStr (e : Json) : String :=
  match tsKey e with
  | .ok (Json.str s) => s
  | _ => ""

/-- Whether an event's sort key is defined and is a string (the event is an
object whose `timestamp` field, if present, is a string). -/
def eventKeyStr (e : Json) : Bool :=
  match tsKey e with
  | .ok (Json.str _) => true
  | _ => false

/-- What the backing log document looks like to `_load_logs`: missing,
present but not valid JSON (with the decoder's diagnostic), or parsed. -/
inductive LogDoc where
  | absent : LogDoc
  | invalid : String → LogDoc
  | valid : Json → LogDoc

/-- `_load_logs` (src/backend/main.py:31-43): empty list when the document
is missing; `HTTPException(500, "Corrupt logs.json: …")` when it does not
parse; `HTTPException(500, "logs.json should contain a JSON array")` when
the parsed value is not an array; otherwise the raw array elements. -/
def load_logs : LogDoc → Except PyErr (List Json)
  | LogDoc.absent => .ok []
  | LogDoc.invalid diag =>
    .error (PyErr.httpException 500 ("Corrupt logs.json: " ++ diag))
  | LogDoc.valid raw =>
    match raw with
    | Json.arr events => .ok events
    | _ => .error (PyErr.httpException 500 "logs.json should contain a JSON array")

/-- Stable descending sort by a string-valued key: the embedding of
`sorted(xs, key=key, reverse=True)` when every key is a string. -/
def sortD (key : α → String) (l : List α) : List α :=
  List.insertionSort (fun a b => key b ≤ key a) l

/-- One step of the keyed descending sort on arbitrary Python keys: insert a
(key, element) pair into an already sorted list, keeping it behind every
element whose key is strictly larger, and propagating the `TypeError` of an
undefined `<`. -/
def insertE : Json × α → List (Json × α) → Except PyErr (List (Json × α))
  | x, [] => .ok [x]
  | x, y :: ys => do
    let b ← pyLt x.1 y.1
    if b then
      let rest ← insertE x ys
      .ok (y :: rest)
    else
      .ok (x :: y :: ys)

/-- The stable descending sort of (key, element) pairs on arbitrary Python
keys: the comparison part of `sorted(xs, key=key, reverse=True)`. -/
def sortE : List (Json × α) → Except PyErr (List (Json × α))
  | [] => .ok []
  | x :: l => do
    let s ← sortE l
    insertE x s

/-- The decoration pass of `sorted(events, key=lambda e: e.get("timestamp",
""))`: the key function is applied to every event, in list order, before any
comparison happens. -/
def mapKeyed (events : List Json) : Except PyErr (List (Json × Json)) :=
  events.mapM (fun e => (tsKey e).map (fun k => (k, e)))

/-- The `/api/logs` response body. -/
structure LogsResponse where
  events : List Json
  total : Nat
deriving Repr

/-- `get_logs` (src/backend/main.py:73-77): load the events and return them
sorted by `e.get("timestamp", "")` descending, with the count. -/
def get_logs (doc : LogDoc) : Except PyErr LogsResponse := do
  let events ← load_logs doc
  let keyed ← mapKeyed events
  let s ← sortE keyed
  let events_sorted := s.map (fun p => p.2)
  .ok { events := events_sorted, total := events_sorted.length }

/-- One directory entry as `Path.iterdir` yields it: its base name, whether
it is a subdirectory, and its `st_mtime` (whole seconds since the epoch). -/
structure DirEntry where
  name : String
  isDir : Bool
  mtime : Int
deriving Repr, DecidableEq

/-- What the image directory looks like to `_load_images`: missing, or
present with its direct entries in enumeration order. -/
inductive ImagesDir where
  | absent : ImagesDir
  | present : List DirEntry → ImagesDir

/-- The index of the last `'.'` in a list of characters, if any. -/
def lastDotIdx : List Char → Option Nat
  | [] => none
  | c :: cs =>
    match lastDotIdx cs with
    | some i => some (i + 1)
    | none => if c = '.' then some 0 else none

/-- `pathlib.PurePath.suffix` of a base name: the part from the last dot on,
but only when that dot is neither the first nor the last character. -/
def pySuffix (name : String) : String :=
  match lastDotIdx name.data with
  | some i =>
    if 0 < i && i < name.data.length - 1 then String.mk (name.data.drop i) else ""
  | none => ""

/-- `str.lower` restricted to ASCII letters (file extensions here are
ASCII). -/
def pyLower (s : String) : String :=
  String.mk (s.data.map fun c =>
    if 'A' ≤ c && c ≤ 'Z' then Char.ofNat (c.toNat + 32) else c)

/-- The membership test of `_load_images`:
`file.suffix.lower() in {".png", ".jpg", ".jpeg", ".gif", ".bmp"}`. -/
def allowedName (name : String) : Bool :=
  [".png", ".jpg", ".jpeg", ".gif", ".bmp"].contains (pyLower (pySuffix name))

/-- Days-since-epoch to proleptic Gregorian calendar date (the civil-date
algorithm used by every epoch-to-date conversion). -/
def civilFromDays (days : Int) : Int × Int × Int :=
  let z := days + 719468
  let era := z.ediv 146097
  let doe := z - era * 146097
  let yoe := (doe - doe / 1460 + doe / 36524 - doe / 146096) / 365
  let y := yoe + era * 400
  let doy := doe - (365 * yoe + yoe / 4 - yoe / 100)
  let mp := (5 * doy + 2) / 153
  let d := doy - (153 * mp + 2) / 5 + 1
  let m := mp + (if mp < 10 then 3 else -9)
  (if m ≤ 2 then y + 1 else y, m, d)

/-- Zero-padded two-digit field. -/
def pad2 (n : Int) : String :=
  if n < 10 then "0" ++ toString n else toString n

/-- Zero-padded four-digit year. -/
def pad4 (n : Int) : String :=
  if n < 10 then "000" ++ toString n
  else if n < 100 then "00" ++ toString n
  else if n < 1000 then "0" ++ toString n
  else toString n

/-- `datetime.fromtimestamp(t, tz=timezone.utc).isoformat()` for a whole
number of seconds: the UTC civil date and time of day, ISO-8601, with the
explicit `+00:00` offset. -/
def isoUtc (t : Int) : String :=
  let days := t.ediv 86400
  let sod := t.emod 86400
  let ymd := civilFromDays days
  pad4 ymd.1 ++ "-" ++ pad2 ymd.2.1 ++ "-" ++ pad2 ymd.2.2 ++ "T" ++
    pad2 (sod / 3600) ++ ":" ++ pad2 (sod % 3600 / 60) ++ ":" ++ pad2 (sod % 60) ++
    "+00:00"

/-- One element of the `/api/images` response. -/
structure ImageRecord where
  filename : String
  url : String
  timestamp : String
deriving Repr, DecidableEq

/-- The record `_load_images` builds for one qualifying entry
(src/backend/main.py:54-62): the base name verbatim, the static-mount URL
`f"/static/images/{file.name}"`, and the formatted modification time. -/
def mkRecord (f : DirEntry) : ImageRecord :=
  { filename := f.name
    url := "/static/images/" ++ f.name
    timestamp := isoUtc f.mtime }

/-- The `items` list of `_load_images` before its final sort: the directory
entries whose name passes the extension test (the loop never asks whether an
entry is a file), each turned into a record. -/
def imageItems : ImagesDir → List ImageRecord
  | ImagesDir.absent => []
  | ImagesDir.present entries =>
    (entries.filter fun f => allowedName f.name).map mkRecord

/-- `_load_images` (src/backend/main.py:46-65): empty when the directory is
missing, otherwise the filtered records sorted by `timestamp` descending
(`items.sort(key=lambda item: item["timestamp"], reverse=True)`). -/
def load_images : ImagesDir → List ImageRecord
  | ImagesDir.absent => []
  | ImagesDir.present entries =>
    sortD (fun r => r.timestamp)
      ((entries.filter fun f => allowedName f.name).map mkRecord)

/-- The `/api/images` response body. -/
structure ImagesResponse where
  images : List ImageRecord
  total : Nat
deriving Repr, DecidableEq

/-- `get_images` (src/backend/main.py:80-83). -/
def get_images (d : ImagesDir) : ImagesResponse :=
  let images := load_images d
  { images := images, total := images.length }

/-- The external persisted state a request observes: the log document and
the image directory. The service itself holds no other state. -/
structure FS where
  log : LogDoc
  imagesDir : ImagesDir

/-- The `/api/logs` endpoint as a function of the observed state. -/
def api_logs (fs : FS) : Except PyErr LogsResponse :=
  get_logs fs.log

/-- The `/api/images` endpoint as a function of the observed state. -/
def api_images (fs : FS) : ImagesResponse :=
  get_images fs.imagesDir

/-- Whether a JSON value is an array (Python `isinstance(raw, list)`). -/
def Json.isArr : Json → Bool
  | Json.arr _ => true
  | _ => false

/-- A sample log array exercising a duplicate timestamp and a missing one. -/
def sampleEvents : List Json :=
  [Json.obj [("timestamp", Json.str "2024-01-01T00:00:00Z"), ("msg", Json.str "a")],
   Json.obj [("msg", Json.str "b")],
   Json.obj [("timestamp", Json.str "2024-01-02T00:00:00Z"), ("msg", Json.str "c")],
   Json.obj [("timestamp", Json.str "2024-01-01T00:00:00Z"), ("msg", Json.str "d")]]

/-- Tag a string-keyed pair as a Python-valued keyed pair. -/
def strPair (p : String × Json) : Json × Json := (Json.str p.1, p.2)

/-- Apply `g` to the element of a keyed pair, keeping the key. -/
def sndMap (g : α → β) (p : Json × α) : Json × β := (p.1, g p.2)

/-! ## Properties of the stable descending sort on string keys -/

theorem sortD_perm (key : α → String) (l : List α) : (sortD key l).Perm l :=
  List.perm_insertionSort _ l

theorem sortD_pairwise (key : α → String) (l : List α) :
    (sortD key l).Pairwise (fun a b => key b ≤ key a) := by
  haveI : IsTotal α (fun a b => key b ≤ key a) := ⟨fun a b => le_total (key b) (key a)⟩
  haveI : IsTrans α (fun a b => key b ≤ key a) :=
    ⟨fun _ _ _ hab hbc => le_trans hbc hab⟩
  exact List.sorted_insertionSort _ l

theorem orderedInsert_filter_key (key : α → String) (x : α) (l : List α) (s : String) :
    (List.orderedInsert (fun a b => key b ≤ key a) x l).filter (fun a => key a == s) =
      if key x == s then x :: l.filter (fun a => key a == s)
      else l.filter (fun a => key a == s) := by
  induction l with
  | nil =>
    by_cases hx : (key x == s) = true
    · rw [if_pos hx]
      simp [List.orderedInsert, hx]
    · rw [if_neg hx]
      simp [List.orderedInsert, hx]
  | cons y ys ih =>
    simp only [List.orderedInsert]
    by_cases hxy : key y ≤ key x
    · rw [if_pos hxy, List.filter_cons]
    · rw [if_neg hxy, List.filter_cons, ih]
      have hlt : key x < key y := lt_of_not_le hxy
      by_cases hy : (key y == s) = true
      · have hys : key y = s := by simpa using hy
        by_cases hx : (key x == s) = true
        · have hxs : key x = s := by simpa using hx
          rw [hxs, hys] at hlt
          exact absurd hlt (lt_irrefl s)
        · rw [if_pos hy, if_neg hx, if_neg hx, List.filter_cons, if_pos hy]
      · rw [if_neg hy, List.filter_cons, if_neg hy]

theorem sortD_filter (key : α → String) (l : List α) (s : String) :
    (sortD key l).filter (fun a => key a == s) = l.filter (fun a => key a == s) := by
  induction l with
  | nil => rfl
  | cons x xs ih =>
    simp only [sortD, List.insertionSort] at ih ⊢
    rw [orderedInsert_filter_key, ih, List.filter_cons]

theorem orderedInsert_map (key : α → String) (f : β → α) (x : β) (l : List β) :
    List.orderedInsert (fun a b => key b ≤ key a) (f x) (l.map f) =
      (List.orderedInsert (fun a b => key (f b) ≤ key (f a)) x l).map f := by
  induction l with
  | nil => rfl
  | cons y ys ih =>
    simp only [List.map_cons, List.orderedInsert]
    by_cases h : key (f y) ≤ key (f x)
    · rw [if_pos h, if_pos h, List.map_cons, List.map_cons]
    · rw [if_neg h, if_neg h, List.map_cons, ih]

theorem sortD_map (key : α → String) (f : β → α) (l : List β) :
    sortD key (l.map f) = (sortD (fun b => key (f b)) l).map f := by
  induction l with
  | nil => rfl
  | cons x xs ih =>
    simp only [sortD, List.map_cons, List.insertionSort] at ih ⊢
    rw [ih, orderedInsert_map]

/-! ## Properties of the keyed sort on arbitrary Python values -/

theorem exceptBind_ok (a : α) (f : α → Except ε β) : (Except.ok a >>= f) = f a := rfl

theorem exceptBind_error (e : ε) (f : α → Except ε β) :
    ((Except.error e : Except ε α) >>= f) = .error e := rfl

theorem exceptMap_ok (f : α → β) (a : α) :
    (Except.ok a : Except ε α).map f = .ok (f a) := rfl

theorem exceptMap_error (f : α → β) (e : ε) :
    (Except.error e : Except ε α).map f = .error e := rfl

theorem strPair_fst (p : String × Json) : (strPair p).1 = Json.str p.1 := rfl

theorem sndMap_fst (g : α → β) (p : Json × α) : (sndMap g p).1 = p.1 := rfl

theorem pyLt_str (a b : String) :
    pyLt (Json.str a) (Json.str b) = .ok (decide (a < b)) := rfl

theorem insertE_perm (x : Json × α) (l : List (Json × α)) (s : List (Json × α))
    (h : insertE x l = .ok s) : s.Perm (x :: l) := by
  induction l generalizing s with
  | nil =>
    simp only [insertE] at h
    injection h with h
    subst h
    exact List.Perm.refl _
  | cons y ys ih =>
    simp only [insertE] at h
    cases hp : pyLt x.1 y.1 with
    | error e => rw [hp, exceptBind_error] at h; cases h
    | ok b =>
      rw [hp, exceptBind_ok] at h
      cases b with
      | false =>
        rw [if_neg Bool.false_ne_true] at h
        injection h with h
        subst h
        exact List.Perm.refl _
      | true =>
        rw [if_pos rfl] at h
        cases hq : insertE x ys with
        | error e => rw [hq, exceptBind_error] at h; cases h
        | ok rest =>
          rw [hq, exceptBind_ok] at h
          injection h with h
          subst h
          exact ((ih rest hq).cons y).trans (List.Perm.swap x y ys)

theorem sortE_perm (l : List (Json × α)) (s : List (Json × α))
    (h : sortE l = .ok s) : s.Perm l := by
  induction l generalizing s with
  | nil =>
    simp only [sortE] at h
    injection h with h
    subst h
    exact List.Perm.refl _
  | cons x xs ih =>
    simp only [sortE] at h
    cases hq : sortE xs with
    | error e => rw [hq, exceptBind_error] at h; cases h
    | ok s0 =>
      rw [hq, exceptBind_ok] at h
      exact (insertE_perm x s0 s h).trans ((ih s0 hq).cons x)

theorem insertE_str (p : String × Json) (l : List (String × Json)) :
    insertE (strPair p) (l.map strPair) =
      .ok ((List.orderedInsert (fun a b => b.1 ≤ a.1) p l).map strPair) := by
  induction l with
  | nil => rfl
  | cons q qs ih =>
    simp only [List.map_cons, insertE, strPair_fst, pyLt_str, exceptBind_ok]
    by_cases h : q.1 ≤ p.1
    · rw [decide_eq_false (not_lt.mpr h), if_neg Bool.false_ne_true,
        List.orderedInsert, if_pos h]
      rfl
    · rw [decide_eq_true (lt_of_not_le h), if_pos rfl, ih, exceptBind_ok,
        List.orderedInsert, if_neg h]
      rfl

theorem sortE_str (l : List (String × Json)) :
    sortE (l.map strPair) =
      .ok ((List.insertionSort (fun a b => b.1 ≤ a.1) l).map strPair) := by
  induction l with
  | nil => rfl
  | cons p ps ih =>
    simp only [List.map_cons, sortE, List.insertionSort]
    rw [ih, exceptBind_ok]
    exact insertE_str p (List.insertionSort _ ps)

theorem insertE_mapSnd (g : α → β) (x : Json × α) (l : List (Json × α)) :
    insertE (sndMap g x) (l.map (sndMap g)) =
      (insertE x l).map (List.map (sndMap g)) := by
  induction l with
  | nil => rfl
  | cons y ys ih =>
    simp only [List.map_cons, insertE, sndMap_fst]
    cases hp : pyLt x.1 y.1 with
    | error e => rw [exceptBind_error, exceptBind_error, exceptMap_error]
    | ok b =>
      rw [exceptBind_ok, exceptBind_ok]
      cases b with
      | false =>
        rw [if_neg Bool.false_ne_true, if_neg Bool.false_ne_true, exceptMap_ok]
        rfl
      | true =>
        rw [if_pos rfl, if_pos rfl, ih]
        cases hq : insertE x ys with
        | error e => rw [exceptMap_error, exceptBind_error, exceptBind_error, exceptMap_error]
        | ok rest =>
          rw [exceptMap_ok, exceptBind_ok, exceptBind_ok, exceptMap_ok]
          rfl

theorem sortE_mapSnd (g : α → β) (l : List (Json × α)) :
    sortE (l.map (sndMap g)) = (sortE l).map (List.map (sndMap g)) := by
  induction l with
  | nil => rfl
  | cons x xs ih =>
    simp only [List.map_cons, sortE]
    rw [ih]
    cases hq : sortE xs with
    | error e => rw [exceptMap_error, exceptBind_error, exceptBind_error, exceptMap_error]
    | ok s0 =>
      rw [exceptMap_ok, exceptBind_ok, exceptBind_ok]
      exact insertE_mapSnd g x s0

theorem tsKey_of_eventKeyStr (e : Json) (h : eventKeyStr e = true) :
    tsKey e = Except.ok (Json.str (keyStr e)) := by
  unfold eventKeyStr at h
  unfold keyStr
  split at h
  · next s heq => rw [heq]
  · cases h

theorem mapKeyed_str (events : List Json) (h : events.all eventKeyStr = true) :
    mapKeyed events = .ok (events.map (fun e => strPair (keyStr e, e))) := by
  induction events with
  | nil => rfl
  | cons e es ih =>
    rw [List.all_cons, Bool.and_eq_true] at h
    have hk : tsKey e = Except.ok (Json.str (keyStr e)) := tsKey_of_eventKeyStr e h.1
    unfold mapKeyed at ih ⊢
    rw [List.mapM_cons, hk, exceptMap_ok, exceptBind_ok, ih h.2, exceptBind_ok,
      List.map_cons]
    rfl

theorem sortD_fst_map_snd (l : List Json) :
    ((List.insertionSort (fun a b : String × Json => b.1 ≤ a.1)
        (l.map (fun e => (keyStr e, e)))).map strPair).map (fun p => p.2) =
      sortD keyStr l := by
  rw [show (List.insertionSort (fun a b : String × Json => b.1 ≤ a.1)
      (l.map (fun e => (keyStr e, e)))) =
        sortD Prod.fst (l.map (fun e => (keyStr e, e))) from rfl,
    sortD_map, List.map_map, List.map_map]
  show (sortD keyStr l).map (fun e : Json => e) = sortD keyStr l
  exact List.map_id' _

theorem get_logs_all_str (events : List Json) (h : events.all eventKeyStr = true) :
    get_logs (LogDoc.valid (Json.arr events)) =
      .ok { events := sortD keyStr events, total := (sortD keyStr events).length } := by
  have hmk : mapKeyed events =
      .ok ((events.map (fun e => (keyStr e, e))).map strPair) := by
    rw [mapKeyed_str events h, List.map_map]
    rfl
  unfold get_logs
  rw [show load_logs (LogDoc.valid (Json.arr events)) = .ok events from rfl,
    exceptBind_ok, hmk, exceptBind_ok, sortE_str, exceptBind_ok, sortD_fst_map_snd]

theorem lookupField_append_ts (fields : List (String × Json)) :
    lookupField (fields ++ [("timestamp", Json.str "")]) "timestamp" =
      some (Json.str "") := by
  induction fields with
  | nil => rfl
  | cons p rest ih =>
    rw [List.cons_append]
    unfold lookupField
    rw [ih]

theorem mapKeyed_hole (e e2 : Json) (hk : tsKey e = tsKey e2) (l : List (Option Json)) :
    ∃ r : Except PyErr (List (Json × Option Json)),
      mapKeyed (l.map (fun o => o.getD e)) =
        r.map (List.map (sndMap (fun o => o.getD e))) ∧
      mapKeyed (l.map (fun o => o.getD e2)) =
        r.map (List.map (sndMap (fun o => o.getD e2))) ∧
      ∀ s, r = .ok s → s.map Prod.snd = l := by
  induction l with
  | nil =>
    refine ⟨.ok [], rfl, rfl, ?_⟩
    intro s hs
    injection hs with hs
    rw [← hs]
    rfl
  | cons o rest ih =>
    obtain ⟨r, h1, h2, h3⟩ := ih
    have expand1 : mapKeyed ((o :: rest).map (fun o => o.getD e)) =
        ((tsKey (o.getD e)).map (fun k => (k, o.getD e))) >>= (fun b =>
          (mapKeyed (rest.map (fun o => o.getD e))) >>= (fun bs => pure (b :: bs))) := by
      rw [List.map_cons]
      unfold mapKeyed
      rw [List.mapM_cons]
    have expand2 : mapKeyed ((o :: rest).map (fun o => o.getD e2)) =
        ((tsKey (o.getD e2)).map (fun k => (k, o.getD e2))) >>= (fun b =>
          (mapKeyed (rest.map (fun o => o.getD e2))) >>= (fun bs => pure (b :: bs))) := by
      rw [List.map_cons]
      unfold mapKeyed
      rw [List.mapM_cons]
    cases o with
    | some x =>
      cases htk : tsKey x with
      | error err =>
        refine ⟨.error err, ?_, ?_, ?_⟩
        · rw [expand1, show (some x).getD e = x from rfl, htk, exceptMap_error,
            exceptBind_error, exceptMap_error]
        · rw [expand2, show (some x).getD e2 = x from rfl, htk, exceptMap_error,
            exceptBind_error, exceptMap_error]
        · intro s hs
          cases hs
      | ok k =>
        cases r with
        | error err =>
          rw [exceptMap_error] at h1 h2
          refine ⟨.error err, ?_, ?_, ?_⟩
          · rw [expand1, show (some x).getD e = x from rfl, htk, exceptMap_ok,
              exceptBind_ok, h1, exceptBind_error, exceptMap_error]
          · rw [expand2, show (some x).getD e2 = x from rfl, htk, exceptMap_ok,
              exceptBind_ok, h2, exceptBind_error, exceptMap_error]
          · intro s hs
            cases hs
        | ok s0 =>
          rw [exceptMap_ok] at h1 h2
          refine ⟨.ok ((k, some x) :: s0), ?_, ?_, ?_⟩
          · rw [expand1, show (some x).getD e = x from rfl, htk, exceptMap_ok,
              exceptBind_ok, h1, exceptBind_ok, exceptMap_ok]
            rfl
          · rw [expand2, show (some x).getD e2 = x from rfl, htk, exceptMap_ok,
              exceptBind_ok, h2, exceptBind_ok, exceptMap_ok]
            rfl
          · intro s hs
            injection hs with hs
            rw [← hs, List.map_cons, h3 s0 rfl]
    | none =>
      cases htk : tsKey e with
      | error err =>
        have htk2 : tsKey e2 = .error err := by rw [← hk, htk]
        refine ⟨.error err, ?_, ?_, ?_⟩
        · rw [expand1, show (none : Option Json).getD e = e from rfl, htk,
            exceptMap_error, exceptBind_error, exceptMap_error]
        · rw [expand2, show (none : Option Json).getD e2 = e2 from rfl, htk2,
            exceptMap_error, exceptBind_error, exceptMap_error]
        · intro s hs
          cases hs
      | ok k =>
        have htk2 : tsKey e2 = .ok k := by rw [← hk, htk]
        cases r with
        | error err =>
          rw [exceptMap_error] at h1 h2
          refine ⟨.error err, ?_, ?_, ?_⟩
          · rw [expand1, show (none : Option Json).getD e = e from rfl, htk,
              exceptMap_ok, exceptBind_ok, h1, exceptBind_error, exceptMap_error]
          · rw [expand2, show (none : Option Json).getD e2 = e2 from rfl, htk2,
              exceptMap_ok, exceptBind_ok, h2, exceptBind_error, exceptMap_error]
          · intro s hs
            cases hs
        | ok s0 =>
          rw [exceptMap_ok] at h1 h2
          refine ⟨.ok ((k, none) :: s0), ?_, ?_, ?_⟩
          · rw [expand1, show (none : Option Json).getD e = e from rfl, htk,
              exceptMap_ok, exceptBind_ok, h1, exceptBind_ok, exceptMap_ok]
            rfl
          · rw [expand2, show (none : Option Json).getD e2 = e2 from rfl, htk2,
              exceptMap_ok, exceptBind_ok, h2, exceptBind_ok, exceptMap_ok]
            rfl
          · intro s hs
            injection hs with hs
            rw [← hs, List.map_cons, h3 s0 rfl]

theorem get_logs_arr (events : List Json) :
    get_logs (LogDoc.valid (Json.arr events)) =
      (mapKeyed events) >>= (fun keyed => (sortE keyed) >>= (fun s =>
        .ok { events := s.map (fun p => p.2),
              total := (s.map (fun p => p.2)).length })) := rfl

/-! ## The claims -/

/-- C2: absence of backing state is never an error: a missing log document
yields an empty, successful `/api/logs` response with `total = 0`, and a
missing image directory yields an empty, successful `/api/images` response
with `total = 0`; no exception is raised in either case. -/
theorem absence_yields_empty_success :
    get_logs LogDoc.absent = .ok { events := [], total := 0 } ∧
    load_logs LogDoc.absent = .ok [] ∧
    load_images ImagesDir.absent = [] ∧
    get_images ImagesDir.absent = { images := [], total := 0 } :=
  ⟨rfl, rfl, rfl, rfl⟩

/-- C3: an existing log document that fails to parse makes `_load_logs`
raise `HTTPException(500, …)` whose detail is the fixed prefix followed by
the parse diagnostic (so it carries the diagnostic), the same failure
propagates unchanged through `get_logs` (no partial data is returned), and
a document that parses as an array raises no such error. -/
theorem corrupt_log_document_500 (diag : String) (events : List Json) :
    load_logs (LogDoc.invalid diag) =
      .error (PyErr.httpException 500 ("Corrupt logs.json: " ++ diag)) ∧
    get_logs (LogDoc.invalid diag) =
      .error (PyErr.httpException 500 ("Corrupt logs.json: " ++ diag)) ∧
    (∃ p, "Corrupt logs.json: " ++ diag = p ++ diag) ∧
    load_logs (LogDoc.valid (Json.arr events)) = .ok events :=
  ⟨rfl, rfl, ⟨"Corrupt logs.json: ", rfl⟩, rfl⟩

/-- C4: an existing log document that parses to a non-array value makes
`get_logs` fail with `HTTPException(500, "logs.json should contain a JSON
array")`, a message distinct from every `CorruptDataError` message
`"Corrupt logs.json: " ++ diag`. -/
theorem non_array_log_schema_500 (j : Json) (h : Json.isArr j = false) :
    get_logs (LogDoc.valid j) =
      .error (PyErr.httpException 500 "logs.json should contain a JSON array") ∧
    (∀ diag : String,
      "logs.json should contain a JSON array" ≠ "Corrupt logs.json: " ++ diag) := by
  constructor
  · cases j with
    | arr l => cases h
    | null => rfl
    | bool b => rfl
    | num n => rfl
    | str s => rfl
    | obj fields => rfl
  · intro diag hEq
    have hd := congrArg String.data hEq
    rw [String.data_append] at hd
    have hh := congrArg List.head? hd
    rw [show ("Corrupt logs.json: ".data ++ diag.data).head? = some 'C' from rfl,
      show ("logs.json should contain a JSON array".data).head? = some 'l' from rfl] at hh
    exact absurd hh (by decide)

/-- Witness for C4 at the concrete non-array document `{}`. -/
theorem non_array_log_schema_500_witness :
    get_logs (LogDoc.valid (Json.obj [])) =
      .error (PyErr.httpException 500 "logs.json should contain a JSON array") ∧
    (∀ diag : String,
      "logs.json should contain a JSON array" ≠ "Corrupt logs.json: " ++ diag) :=
  non_array_log_schema_500 (Json.obj []) rfl

/-- C9: the sort of `get_logs` is only total when every present timestamp
is a string: on the concrete array whose first event has the numeric
timestamp `5` and whose second has a string timestamp, the key comparison
raises a `TypeError` — an untyped error, not one of the deliberate
`HTTPException`s — so `get_logs` fails instead of answering. -/
theorem get_logs_nonstring_key_raises :
    get_logs (LogDoc.valid (Json.arr [Json.obj [("timestamp", Json.num 5)],
        Json.obj [("timestamp", Json.str "2024-01-01T00:00:00Z")]])) =
      .error PyErr.typeError ∧
    PyErr.typeError.isHTTP = false :=
  ⟨rfl, rfl⟩

/-- C8: each read endpoint is a pure function of the backing state it
observes: two requests that see the same log document get identical
`/api/logs` responses, and two requests that see the same image directory
get identical `/api/images` responses (the embedding of the service holds
no other state). -/
theorem endpoints_pure_function_of_state (fs1 fs2 : FS)
    (hlog : fs1.log = fs2.log) (himg : fs1.imagesDir = fs2.imagesDir) :
    api_logs fs1 = api_logs fs2 ∧ api_images fs1 = api_images fs2 := by
  unfold api_logs api_images
  rw [hlog, himg]
  exact ⟨rfl, rfl⟩

/-- Witness for C8 at a concrete pair of equal states. -/
theorem endpoints_pure_function_of_state_witness :
    api_logs { log := LogDoc.absent, imagesDir := ImagesDir.absent } =
      api_logs { log := LogDoc.absent, imagesDir := ImagesDir.absent } ∧
    api_images { log := LogDoc.absent, imagesDir := ImagesDir.absent } =
      api_images { log := LogDoc.absent, imagesDir := ImagesDir.absent } :=
  endpoints_pure_function_of_state
    { log := LogDoc.absent, imagesDir := ImagesDir.absent }
    { log := LogDoc.absent, imagesDir := ImagesDir.absent } rfl rfl

/-- C5 (amended): `_load_images` returns exactly the direct entries whose
extension, compared case-insensitively, is in the allow-set
`{png, jpg, jpeg, gif, bmp}` — regardless of whether the entry is a file or
a subdirectory, since the loop never checks the entry type — and every
other entry (in particular `note.txt`) is silently excluded. -/
theorem load_images_extension_filter (entries : List DirEntry) :
    (∀ r ∈ load_images (ImagesDir.present entries),
      ∃ f, f ∈ entries ∧ allowedName f.name = true ∧ r.filename = f.name) ∧
    ((load_images (ImagesDir.present entries)).map (fun r => r.filename)).Perm
      ((entries.filter fun f => allowedName f.name).map (fun f => f.name)) ∧
    allowedName "note.txt" = false := by
  have hperm : (load_images (ImagesDir.present entries)).Perm
      ((entries.filter fun f => allowedName f.name).map mkRecord) :=
    sortD_perm _ _
  refine ⟨?_, ?_, rfl⟩
  · intro r hr
    have hr2 : r ∈ (entries.filter fun f => allowedName f.name).map mkRecord :=
      hperm.mem_iff.mp hr
    obtain ⟨f, hf, hfr⟩ := List.mem_map.mp hr2
    refine ⟨f, (List.mem_filter.mp hf).1, (List.mem_filter.mp hf).2, ?_⟩
    rw [← hfr]
    rfl
  · refine (hperm.map (fun r => r.filename)).trans ?_
    rw [List.map_map]
    exact List.Perm.refl _

/-- Counterexample for C5 as frozen: a subdirectory named `sub.png` is not
excluded — `_load_images` returns a record for it. -/
theorem load_images_subdirectory_counterexample :
    (⟨"sub.png", true, 0⟩ : DirEntry).isDir = true ∧
    load_images (ImagesDir.present [⟨"sub.png", true, 0⟩]) =
      [{ filename := "sub.png", url := "/static/images/sub.png",
         timestamp := "1970-01-01T00:00:00+00:00" }] :=
  ⟨rfl, rfl⟩

/-- C6: every qualifying entry yields exactly the record whose `filename`
is the entry's base name verbatim, whose `url` is the fixed static-mount
prefix joined with that name, and whose `timestamp` is the entry's
modification time rendered as UTC ISO-8601 with the explicit `+00:00`
offset; that record appears in the `_load_images` output. -/
theorem load_images_record_shape (entries : List DirEntry) (f : DirEntry)
    (hf : f ∈ entries) (ha : allowedName f.name = true) :
    mkRecord f ∈ load_images (ImagesDir.present entries) ∧
    (mkRecord f).filename = f.name ∧
    (mkRecord f).url = "/static/images/" ++ f.name ∧
    (mkRecord f).timestamp = isoUtc f.mtime ∧
    (∃ core, (mkRecord f).timestamp = core ++ "+00:00") := by
  refine ⟨?_, rfl, rfl, rfl, ⟨_, rfl⟩⟩
  have hmem : mkRecord f ∈ (entries.filter fun g => allowedName g.name).map mkRecord :=
    List.mem_map_of_mem mkRecord (List.mem_filter.mpr ⟨hf, ha⟩)
  exact (sortD_perm _ _).mem_iff.mpr hmem

/-- Witness for C6 at a concrete directory holding one allowed file. -/
theorem load_images_record_shape_witness :
    mkRecord ⟨"cam2.png", false, 200⟩ ∈
      load_images (ImagesDir.present [⟨"cam2.png", false, 200⟩]) ∧
    (mkRecord ⟨"cam2.png", false, 200⟩).filename = "cam2.png" ∧
    (mkRecord ⟨"cam2.png", false, 200⟩).url = "/static/images/" ++ "cam2.png" ∧
    (mkRecord ⟨"cam2.png", false, 200⟩).timestamp = isoUtc 200 ∧
    (∃ core, (mkRecord ⟨"cam2.png", false, 200⟩).timestamp = core ++ "+00:00") :=
  load_images_record_shape [⟨"cam2.png", false, 200⟩] ⟨"cam2.png", false, 200⟩
    (List.mem_singleton.mpr rfl) rfl

/-- C7: for every state of the image directory, the `_load_images` output
(and hence the `/api/images` payload) is sorted by `timestamp` descending
under string comparison, it is stable — entries with equal timestamps keep
the order in which the scan produced them — and it is a permutation of the
scanned records. -/
theorem load_images_sorted_desc_stable (d : ImagesDir) :
    (load_images d).Pairwise (fun a b => b.timestamp ≤ a.timestamp) ∧
    (∀ s, (load_images d).filter (fun r => r.timestamp == s) =
      (imageItems d).filter (fun r => r.timestamp == s)) ∧
    (load_images d).Perm (imageItems d) ∧
    get_images d = { images := load_images d, total := (load_images d).length } := by
  cases d with
  | absent => exact ⟨List.Pairwise.nil, fun s => rfl, List.Perm.refl _, rfl⟩
  | present entries =>
    exact ⟨sortD_pairwise _ _, fun s => sortD_filter _ _ s, sortD_perm _ _, rfl⟩

/-- C1 (amended): for every backing log array in which every event is an
object whose `timestamp` field, when present, is a string, `get_logs`
answers with the events sorted by the key `e.get("timestamp", "")` —
lexical string comparison, descending, missing timestamps as the empty
string (hence last) — the sort is stable (events with equal or missing
timestamps keep their backing-array order, witnessed per key by the filter
equation), the output is a permutation of the array, and `total` is its
length. -/
theorem get_logs_sorted_desc_stable (events : List Json)
    (h : events.all eventKeyStr = true) :
    get_logs (LogDoc.valid (Json.arr events)) =
      .ok { events := sortD keyStr events,
            total := (sortD keyStr events).length } ∧
    (sortD keyStr events).Pairwise (fun a b => keyStr b ≤ keyStr a) ∧
    (∀ s : String, (sortD keyStr events).filter (fun x => keyStr x == s) =
      events.filter (fun x => keyStr x == s)) ∧
    (sortD keyStr events).Perm events :=
  ⟨get_logs_all_str events h, sortD_pairwise keyStr events,
    fun s => sortD_filter keyStr events s, sortD_perm keyStr events⟩

/-- Witness for C1 at a concrete array with a duplicate timestamp and a
missing one. -/
theorem get_logs_sorted_desc_stable_witness :
    get_logs (LogDoc.valid (Json.arr sampleEvents)) =
      .ok { events := sortD keyStr sampleEvents,
            total := (sortD keyStr sampleEvents).length } ∧
    (sortD keyStr sampleEvents).Pairwise (fun a b => keyStr b ≤ keyStr a) ∧
    (∀ s : String, (sortD keyStr sampleEvents).filter (fun x => keyStr x == s) =
      sampleEvents.filter (fun x => keyStr x == s)) ∧
    (sortD keyStr sampleEvents).Perm sampleEvents :=
  get_logs_sorted_desc_stable sampleEvents rfl

/-- Counterexample for C1 as frozen: the document
`[{"timestamp": 1}, {"timestamp": "a"}]` parses as a JSON array, yet
`get_logs` raises a `TypeError` instead of returning the events. -/
theorem get_logs_mixed_key_counterexample :
    get_logs (LogDoc.valid (Json.arr [Json.obj [("timestamp", Json.num 1)],
        Json.obj [("timestamp", Json.str "a")]])) = .error PyErr.typeError :=
  rfl

/-- C10: replacing an event's missing `timestamp` by an explicit
empty-string `timestamp` changes nothing about the behaviour of
`get_logs`: either both runs fail with the very same error, or both
succeed and there is one arrangement `S` of the array positions (a
permutation of the backing order with a hole at the modified event) from
which both outputs arise by filling the hole with the original or the
modified event respectively — the output ordering is identical. -/
theorem get_logs_empty_ts_equiv (pre post : List Json) (kvs : List (String × Json))
    (h : lookupField kvs "timestamp" = none) :
    (∃ err,
      get_logs (LogDoc.valid (Json.arr (pre ++ Json.obj kvs :: post))) =
        .error err ∧
      get_logs (LogDoc.valid (Json.arr
        (pre ++ Json.obj (kvs ++ [("timestamp", Json.str "")]) :: post))) =
        .error err) ∨
    (∃ S : List (Option Json),
      S.Perm (pre.map some ++ none :: post.map some) ∧
      get_logs (LogDoc.valid (Json.arr (pre ++ Json.obj kvs :: post))) =
        .ok { events := S.map (fun o => o.getD (Json.obj kvs)),
              total := S.length } ∧
      get_logs (LogDoc.valid (Json.arr
        (pre ++ Json.obj (kvs ++ [("timestamp", Json.str "")]) :: post))) =
        .ok { events := S.map (fun o =>
                o.getD (Json.obj (kvs ++ [("timestamp", Json.str "")]))),
              total := S.length }) := by
  have hk : tsKey (Json.obj kvs) =
      tsKey (Json.obj (kvs ++ [("timestamp", Json.str "")])) := by
    show Except.ok ((lookupField kvs "timestamp").getD (Json.str "")) =
      Except.ok ((lookupField (kvs ++ [("timestamp", Json.str "")])
        "timestamp").getD (Json.str ""))
    rw [h, lookupField_append_ts]
    rfl
  obtain ⟨r, h1, h2, h3⟩ := mapKeyed_hole (Json.obj kvs)
    (Json.obj (kvs ++ [("timestamp", Json.str "")])) hk
    (pre.map some ++ none :: post.map some)
  have hmap1 : (pre.map some ++ none :: post.map some).map
      (fun o => o.getD (Json.obj kvs)) = pre ++ Json.obj kvs :: post := by
    simp only [List.map_append, List.map_cons, List.map_map, Option.getD_none]
    rw [show ((fun o : Option Json => o.getD (Json.obj kvs)) ∘ some) =
      (fun x : Json => x) from rfl]
    simp only [List.map_id']
  have hmap2 : (pre.map some ++ none :: post.map some).map
      (fun o => o.getD (Json.obj (kvs ++ [("timestamp", Json.str "")]))) =
        pre ++ Json.obj (kvs ++ [("timestamp", Json.str "")]) :: post := by
    simp only [List.map_append, List.map_cons, List.map_map, Option.getD_none]
    rw [show ((fun o : Option Json =>
        o.getD (Json.obj (kvs ++ [("timestamp", Json.str "")]))) ∘ some) =
      (fun x : Json => x) from rfl]
    simp only [List.map_id']
  rw [hmap1] at h1
  rw [hmap2] at h2
  cases r with
  | error err =>
    rw [exceptMap_error] at h1 h2
    left
    refine ⟨err, ?_, ?_⟩
    · rw [get_logs_arr, h1, exceptBind_error]
    · rw [get_logs_arr, h2, exceptBind_error]
  | ok K =>
    rw [exceptMap_ok] at h1 h2
    cases hs : sortE K with
    | error err =>
      left
      refine ⟨err, ?_, ?_⟩
      · rw [get_logs_arr, h1, exceptBind_ok, sortE_mapSnd, hs, exceptMap_error,
          exceptBind_error]
      · rw [get_logs_arr, h2, exceptBind_ok, sortE_mapSnd, hs, exceptMap_error,
          exceptBind_error]
    | ok S0 =>
      right
      refine ⟨S0.map Prod.snd, ?_, ?_, ?_⟩
      · have hp := (sortE_perm K S0 hs).map Prod.snd
        rw [h3 K rfl] at hp
        exact hp
      · rw [get_logs_arr, h1, exceptBind_ok, sortE_mapSnd, hs, exceptMap_ok,
          exceptBind_ok]
        simp only [List.map_map, List.length_map]
        rfl
      · rw [get_logs_arr, h2, exceptBind_ok, sortE_mapSnd, hs, exceptMap_ok,
          exceptBind_ok]
        simp only [List.map_map, List.length_map]
        rfl

/-- Witness for C10 at a concrete array: one leading event, a trailing
event, and a middle event `{"msg": "x"}` with no timestamp. -/
theorem get_logs_empty_ts_equiv_witness :
    (∃ err,
      get_logs (LogDoc.valid (Json.arr ([Json.obj [("timestamp", Json.str "b")]] ++
          Json.obj [("msg", Json.str "x")] :: [Json.obj [("timestamp", Json.str "a")]]))) =
        .error err ∧
      get_logs (LogDoc.valid (Json.arr ([Json.obj [("timestamp", Json.str "b")]] ++
          Json.obj ([("msg", Json.str "x")] ++ [("timestamp", Json.str "")]) ::
            [Json.obj [("timestamp", Json.str "a")]]))) =
        .error err) ∨
    (∃ S : List (Option Json),
      S.Perm ([Json.obj [("timestamp", Json.str "b")]].map some ++
        none :: [Json.obj [("timestamp", Json.str "a")]].map some) ∧
      get_logs (LogDoc.valid (Json.arr ([Json.obj [("timestamp", Json.str "b")]] ++
          Json.obj [("msg", Json.str "x")] :: [Json.obj [("timestamp", Json.str "a")]]))) =
        .ok { events := S.map (fun o => o.getD (Json.obj [("msg", Json.str "x")])),
              total := S.length } ∧
      get_logs (LogDoc.valid (Json.arr ([Json.obj [("timestamp", Json.str "b")]] ++
          Json.obj ([("msg", Json.str "x")] ++ [("timestamp", Json.str "")]) ::
            [Json.obj [("timestamp", Json.str "a")]]))) =
        .ok { events := S.map (fun o =>
                o.getD (Json.obj ([("msg", Json.str "x")] ++ [("timestamp", Json.str "")]))),
              total := S.length }) :=
  get_logs_empty_ts_equiv [Json.obj [("timestamp", Json.str "b")]]
    [Json.obj [("timestamp", Json.str "a")]] [("msg", Json.str "x")] rfl
